import Mathlib

/-!
Verification of `python/utils/run_benchmarks.py`, the cugraph benchmark
harness.

Shallow embedding of the benchmark registry, execution orchestrator and
report formatter of `run_benchmarks.py`.  Pure Python helpers become Lean
functions; the `__main__` block becomes `mainRun`, an explicit state-passing
function over the process-wide result log `perfData`.

The `Benchmark` class, `logExeTime`, `printLastResult` and `nop` come from
`benchmark.py`, which is not part of the sources; their behaviour is modelled
from the spec where noted.  Exceptions become `Except`/`Bool` outcomes,
elapsed wall-clock times become rationals supplied by an outcome oracle.
-/

set_option autoImplicit false

namespace RunBenchmarks

/-- A value stored in the shared result log `perfData`.  In the script each
entry is a `(name, value)` pair whose value is either an elapsed time (a
Python float, modelled as a rational) or the string representation of a
caught exception; `asvPerfData` distinguishes the two with
`isinstance(value, str)`. -/
inductive PVal where
  | num (q : ℚ)
  | str (s : String)
  deriving DecidableEq, Repr

/-- Python `isinstance(value, str)` on a log value. -/
def PVal.isStr : PVal → Bool
  | .str _ => true
  | _ => false

/-- One entry of the process-wide ordered result log `perfData`. -/
abbrev PerfRecord := String × PVal

/-- Identifier of the callable bound into a registry entry (`func=` in
`getBenchmarks`).  The last three are bound methods of the graph handle. -/
inductive FuncId (γ : Type) where
  | pagerank | bfs | sssp | jaccard | louvain
  | weakly_connected_components | overlap | triangles
  | spectralBalancedCutClustering | spectralModularityMaximizationClustering
  | renumber
  | view_adj_list (g : γ) | degree (g : γ) | degrees (g : γ)

/-- A positional argument bound into a registry entry at construction time:
the graph handle, a column of the edge-list table (`edgelist_gdf["src"]`),
an attribute of the parsed-args object (`args.damping_factor`), or a
literal. -/
inductive BoundArg (γ ε α : Type) where
  | graphArg (g : γ)
  | colArg (e : ε) (key : String)
  | attrArg (a : α) (attr : String)
  | intArg (n : ℤ)
  | boolArg (b : Bool)
  | noneArg

/-- The `Benchmark` record: a name, a callable and its bound positional
arguments.  Modelled from the spec: `benchmark.py` is not in the sources;
the spec describes a Benchmark as `{name, func, args}` bound at
registry-construction time. -/
structure Benchmark (γ ε α : Type) where
  name : String
  func : FuncId γ
  args : List (BoundArg γ ε α)

/-- Embedding of `getBenchmarks(G, edgelist_gdf, args)`: builds the fixed
list of 14 registry entries with arguments bound from its inputs.  The graph
handle,
edge-list table and configuration are opaque to the registry (it only binds
them), hence the type parameters: instantiating them with placeholder types
models `getBenchmarks(nop, nop, nop)`. -/
def getBenchmarks {γ ε α : Type} (G : γ) (edgelist_gdf : ε) (args : α) :
    List (Benchmark γ ε α) :=
  [ ⟨"pagerank", .pagerank,
      [.graphArg G, .attrArg args "damping_factor", .noneArg,
       .attrArg args "max_iter", .attrArg args "tolerance"]⟩,
    ⟨"bfs", .bfs, [.graphArg G, .attrArg args "source", .boolArg true]⟩,
    ⟨"sssp", .sssp, [.graphArg G, .attrArg args "source"]⟩,
    ⟨"jaccard", .jaccard, [.graphArg G]⟩,
    ⟨"louvain", .louvain, [.graphArg G]⟩,
    ⟨"weakly_connected_components", .weakly_connected_components,
      [.graphArg G]⟩,
    ⟨"overlap", .overlap, [.graphArg G]⟩,
    ⟨"triangles", .triangles, [.graphArg G]⟩,
    ⟨"spectralBalancedCutClustering", .spectralBalancedCutClustering,
      [.graphArg G, .intArg 2]⟩,
    ⟨"spectralModularityMaximizationClustering",
      .spectralModularityMaximizationClustering, [.graphArg G, .intArg 2]⟩,
    ⟨"renumber", .renumber,
      [.colArg edgelist_gdf "src", .colArg edgelist_gdf "dst"]⟩,
    ⟨"view_adj_list", .view_adj_list G, []⟩,
    ⟨"degree", .degree G, []⟩,
    ⟨"degrees", .degrees G, []⟩ ]

/-- Helper for the keys of a Python `dict` built from a pair list:
first-occurrence order, later duplicates override the value but keep the
original position; `seen` accumulates the keys already emitted. -/
def pyDictKeysAux (seen : List String) : List String → List String
  | [] => []
  | k :: rest =>
    if k ∈ seen then pyDictKeysAux seen rest
    else k :: pyDictKeysAux (k :: seen) rest

/-- Keys of the dictionary `dict([(b.name, b) for b in benches])` built on
line 65, given the names in list order. -/
def pyDictKeys (l : List String) : List String :=
  pyDictKeysAux [] l

/-- The placeholder object `nop` from `benchmark.py`.  Modelled from the
spec: `benchmark.py` is not in the sources; the spec says the registry "may
be a placeholder/no-op object when only enumerating names". -/
inductive Nop where
  | nop
  deriving DecidableEq, Repr

/-- Embedding of `getAllPossibleAlgos()`: the registry names, computed
against placeholders, in insertion order. -/
def getAllPossibleAlgos : List String :=
  pyDictKeys ((getBenchmarks Nop.nop Nop.nop Nop.nop).map Benchmark.name)

/-! Section: `loadDataFile` and extension dispatch. -/

/-- The reader `loadDataFile` dispatches to.  `read_mtx`/`read_csv` are
external file-format adapters; we record only which one is invoked, on which
file, so `Except.error` means no reader ran. -/
inductive ReadDispatch where
  | mtxRead (file : String)
  | csvRead (file : String) (delim : Char)
  deriving DecidableEq, Repr

/-- Python `str.split` with a one-character separator, on the character
list: `"".split(".") == [""]`, `"a..b".split(".") == ["a","","b"]`. -/
def splitOnChar (c : Char) : List Char → List (List Char)
  | [] => [[]]
  | a :: rest =>
    match splitOnChar c rest with
    | [] => [[]]
    | h :: t => if a = c then [] :: h :: t else (a :: h) :: t

/-- Embedding of `file_name.split(".")[-1]`: the substring after the last
dot, or the whole string when there is no dot. -/
def fileTypeOf (file_name : String) : String :=
  String.mk ((splitOnChar '.' file_name.data).getLastD [])

/-- The `ValueError` message of `loadDataFile` for an unsupported
extension. -/
def badFileTypeMsg (file_type file_name : String) : String :=
  "bad file type: '" ++ file_type ++ "', " ++ file_name ++
    " must have a .csv or .mtx extension"

/-- Embedding of `loadDataFile(file_name, csv_delimiter=' ')`: dispatch by
the substring after the last dot; anything other than `mtx`/`csv` raises
`ValueError` without reading the file.  The Python default delimiter is a
space; the embedding takes it explicitly. -/
def loadDataFile (file_name : String) (csv_delimiter : Char) :
    Except String ReadDispatch :=
  let file_type := fileTypeOf file_name
  if file_type = "mtx" then .ok (.mtxRead file_name)
  else if file_type = "csv" then .ok (.csvRead file_name csv_delimiter)
  else .error (badFileTypeMsg file_type file_name)

/-! Section: CLI configuration and algorithm resolution. -/

/-- The parsed CLI configuration (`parseCLI`).  `algo` is `none` when no
`--algo` flag was given; `argparse`'s append action otherwise yields the
non-empty list of supplied names.  `update_asv_dir` and the results dir are
`none` when absent. -/
structure ArgsData where
  file : String
  algo : Option (List String)
  damping_factor : ℚ := 85 / 100
  max_iter : ℤ := 100
  tolerance : ℚ := 1 / 100000
  source : ℤ := 0
  auto_csr : ℤ := 0
  delimiter : String := "space"
  update_results_dir : Option String := none
  update_asv_dir : Option String := none

/-- Python truthiness of an optional string flag: `None` and `""` are
falsy. -/
def truthyStr : Option String → Bool
  | none => false
  | some s => s ≠ ""

/-- Python truthiness of `args.algo` (an optional list): `None` and `[]`
are falsy. -/
def truthyList : Option (List String) → Bool
  | none => false
  | some l => l ≠ []

/-- Rendering of one allowed name inside the `ValueError` message
(`'"%s"' % a`). -/
def quoteName (a : String) : String := "\"" ++ a ++ "\""

/-- The `ValueError` message for unrecognized `--algo` names: it prints the
whole supplied list (so every bad name appears in it) and the allowed
names. -/
def badAlgoMsg (supplied allowed : List String) : String :=
  "bad algo(s): '[" ++
    String.intercalate ", " (supplied.map (fun s => "'" ++ s ++ "'")) ++
    "]', must be in set of " ++
    String.intercalate ", " (allowed.map quoteName)

/-- Possible fatal errors of the `__main__` block. -/
inductive RunError where
  | badAlgo (msg : String)
  | graphFail
  | notImplemented
  deriving DecidableEq, Repr

/-- Lines 177–187 of `__main__`: resolve `algosToRun` from `args.algo`.
Validation only happens when `args.algo` is truthy and does not contain
`"ALL"`; then every supplied name must be in `allPossible + ["ALL"]`. -/
def resolveAlgos (algo : Option (List String)) (allPossible : List String) :
    Except String (List String) :=
  if truthyList algo && !decide ("ALL" ∈ algo.getD []) then
    let l := algo.getD []
    let allowed := allPossible ++ ["ALL"]
    if l.all (fun x => decide (x ∈ allowed)) then .ok l
    else .error (badAlgoMsg l allowed)
  else .ok allPossible

/-! Section: benchmark execution and the main orchestrator. -/

/-- The observable outcome of invoking one benchmark's callable: either it
returns after some elapsed wall-clock time, or it raises an exception with
the given string representation.  Supplied as an oracle keyed by benchmark
name, since the callables are external collaborators. -/
inductive Outcome where
  | ok (elapsed : ℚ)
  | raises (msg : String)
  deriving DecidableEq, Repr

/-- The log value `run()` appends for an outcome: the elapsed time on
success, the exception's string representation on failure.  Modelled from
the spec: `benchmark.py`'s `logExeTime` wrapper is not in the sources; the
spec says any exception is "caught, converted to its string representation,
stored as the PerfRecord's error" while elapsed time is recorded for
successes. -/
def recordOf (o : Outcome) : PVal :=
  match o with
  | .ok t => .num t
  | .raises m => .str m

/-- Embedding of `Benchmark(...).run()`.  Modelled from the spec: appends
exactly one
`PerfRecord` to the shared log and returns the callable's result on success
(`true` here: a non-null handle) or null after a caught exception
(`false`): the spec says a failed build leaves "a null graph handle" and a
failed record has "a null result".  Exceptions never propagate. -/
def runBench (exec : String → Outcome) (name : String)
    (log : List PerfRecord) : List PerfRecord × Bool :=
  match exec name with
  | .ok t => (log ++ [(name, .num t)], true)
  | .raises m => (log ++ [(name, .str m)], false)

/-- Lines 209–210 of `__main__`: `for algo in algosToRun:
benches[algo].run()`, threading the shared log. -/
def runAlgos (exec : String → Outcome) (names : List String)
    (log : List PerfRecord) : List PerfRecord :=
  names.foldl (fun acc n => (runBench exec n acc).1) log

/-- Lines 216–219: the ASV payload conversion, a list comprehension mapping
exception strings to `None` and leaving elapsed times unchanged; the source
log is not written to (a fresh list is built). -/
def asvPerfData (perfData : List PerfRecord) : List (String × Option PVal) :=
  perfData.map (fun p => (p.1, if p.2.isStr then none else some p.2))

/-- Final state of one `__main__` run: the result log when the process
stopped, the fatal error if any, and the ASV payload when one was
produced. -/
structure RunResult where
  log : List PerfRecord
  err : Option RunError
  asv : Option (List (String × Option PVal))
  deriving DecidableEq, Repr

/-- The `__main__` block (lines 173–230) as a function of the parsed
configuration and the outcome oracle: resolve and validate `algosToRun`
(raising `ValueError` before any benchmark runs), run the loader and
builder as benchmarks, abort with `RuntimeError` on a null graph handle,
run each resolved benchmark in order, then raise `NotImplementedError` if
`--update_results_dir` was given, else emit the ASV payload if
`--update_asv_dir` was given. -/
def mainRun (exec : String → Outcome) (args : ArgsData) : RunResult :=
  match resolveAlgos args.algo getAllPossibleAlgos with
  | .error m => ⟨[], some (.badAlgo m), none⟩
  | .ok algosToRun =>
    let r1 := runBench exec "loadDataFile" []
    let r2 := runBench exec "createGraph" r1.1
    if r2.2 = false then ⟨r2.1, some .graphFail, none⟩
    else
      let log3 := runAlgos exec algosToRun r2.1
      if truthyStr args.update_results_dir then
        ⟨log3, some .notImplemented, none⟩
      else if truthyStr args.update_asv_dir then
        ⟨log3, none, some (asvPerfData log3)⟩
      else
        ⟨log3, none, none⟩

/-! Section: concrete fixtures used by witnesses and counterexamples. -/

/-- Outcome oracle under which every callable returns after one second. -/
def execOne : String → Outcome := fun _ => .ok 1

/-- Outcome oracle under which `createGraph` raises and everything else
succeeds. -/
def execGraphBoom : String → Outcome :=
  fun n => if n = "createGraph" then .raises "boom" else .ok 1

/-- Configuration `f.mtx --algo bogus --algo ALL`. -/
def cfgBogusAll : ArgsData := { file := "f.mtx", algo := some ["bogus", "ALL"] }

/-- Configuration `f.mtx --algo bogus`. -/
def cfgBogus : ArgsData := { file := "f.mtx", algo := some ["bogus"] }

/-- Configuration `f.mtx` with no `--algo` flag. -/
def cfgAllDefault : ArgsData := { file := "f.mtx", algo := none }

/-- Configuration `f.mtx --update_results_dir resdir`. -/
def cfgResultsDir : ArgsData :=
  { file := "f.mtx", algo := none, update_results_dir := some "resdir" }

/-- Configuration `f.mtx --algo pagerank --algo pagerank`. -/
def cfgDupPagerank : ArgsData :=
  { file := "f.mtx", algo := some ["pagerank", "pagerank"] }

/-- Configuration `f.mtx --algo pagerank --algo bfs`. -/
def cfgTwo : ArgsData := { file := "f.mtx", algo := some ["pagerank", "bfs"] }

/-! Section: helper lemmas about the execution model. -/

/-- The log produced by one `run()`: exactly one record is appended,
holding the elapsed time or the exception string. -/
theorem runBench_fst (exec : String → Outcome) (n : String)
    (log : List PerfRecord) :
    (runBench exec n log).1 = log ++ [(n, recordOf (exec n))] := by
  cases h : exec n <;> simp [runBench, h, recordOf]

/-- The loop on lines 209–210 appends exactly one record per resolved name,
in order, regardless of which callables raise. -/
theorem runAlgos_eq_append (exec : String → Outcome) (names : List String)
    (log : List PerfRecord) :
    runAlgos exec names log
      = log ++ names.map (fun n => (n, recordOf (exec n))) := by
  induction names generalizing log with
  | nil => simp [runAlgos]
  | cons n ns ih =>
    simp only [runAlgos, List.foldl_cons] at ih ⊢
    rw [runBench_fst, ih]
    simp

/-- Shape of a full run that gets past graph construction: the log holds
the loader record, the builder record, then one record per resolved name in
order, and the run errs with `NotImplementedError` exactly when
`--update_results_dir` is truthy. -/
theorem mainRun_built (exec : String → Outcome) (args : ArgsData)
    (l : List String) (t : ℚ)
    (hres : resolveAlgos args.algo getAllPossibleAlgos = .ok l)
    (hG : exec "createGraph" = .ok t) :
    (mainRun exec args).log
      = ("loadDataFile", recordOf (exec "loadDataFile"))
          :: ("createGraph", .num t)
          :: l.map (fun n => (n, recordOf (exec n)))
    ∧ (mainRun exec args).err
      = (if truthyStr args.update_results_dir then
          some .notImplemented else none) := by
  have hbuild : runBench exec "createGraph" (runBench exec "loadDataFile" []).1
      = ((runBench exec "loadDataFile" []).1 ++ [("createGraph", PVal.num t)],
         true) := by
    simp [runBench, hG]
  constructor <;>
  · simp only [mainRun, hres, hbuild]
    simp [runAlgos_eq_append, runBench_fst, recordOf]
    split
    · simp
    · split <;> simp

/-- Shape of a full run whose graph construction raises: the run aborts
with `RuntimeError` right after the builder record. -/
theorem mainRun_graphFail (exec : String → Outcome) (args : ArgsData)
    (l : List String) (m : String)
    (hres : resolveAlgos args.algo getAllPossibleAlgos = .ok l)
    (hG : exec "createGraph" = .raises m) :
    mainRun exec args
      = ⟨[("loadDataFile", recordOf (exec "loadDataFile")),
          ("createGraph", .str m)], some .graphFail, none⟩ := by
  have hbuild : runBench exec "createGraph" (runBench exec "loadDataFile" []).1
      = ((runBench exec "loadDataFile" []).1 ++ [("createGraph", PVal.str m)],
         false) := by
    simp [runBench, hG]
  simp only [mainRun, hres, hbuild]
  simp [runBench_fst, recordOf]

/-! Section: the claims. -/

/-- C2: if a benchmark's callable raises during the main execution loop,
the exception is caught inside `run()` (it is data, not control flow, in
this embedding — nothing propagates), the corresponding `PerfRecord` stores
the exception's string representation instead of an elapsed time, and the
loop still appends one record per resolved name in order, so every
benchmark in the resolved list executes regardless of earlier failures. -/
theorem c2_exception_isolation (exec : String → Outcome) (names : List String)
    (log : List PerfRecord) :
    runAlgos exec names log
      = log ++ names.map (fun n => (n, recordOf (exec n)))
    ∧ (runAlgos exec names log).length = log.length + names.length
    ∧ (∀ m : String, recordOf (.raises m) = .str m)
    ∧ (∀ t : ℚ, recordOf (.ok t) = .num t) := by
  refine ⟨runAlgos_eq_append exec names log, ?_, fun m => rfl, fun t => rfl⟩
  rw [runAlgos_eq_append]
  simp

/-- C3: an explicit `--algo` list that is a non-empty subset of the
registry names and does not contain `"ALL"` resolves to exactly itself;
when `"ALL"` is among the supplied names, or no `--algo` was given, the
resolution is the full registry name list in insertion order. -/
theorem c3_algo_resolution (algo : Option (List String)) :
    (∀ l : List String, algo = some l → l ≠ [] → "ALL" ∉ l →
        (∀ x ∈ l, x ∈ getAllPossibleAlgos) →
        resolveAlgos algo getAllPossibleAlgos = .ok l)
    ∧ (∀ l : List String, algo = some l → "ALL" ∈ l →
        resolveAlgos algo getAllPossibleAlgos = .ok getAllPossibleAlgos)
    ∧ (algo = none →
        resolveAlgos algo getAllPossibleAlgos = .ok getAllPossibleAlgos) := by
  refine ⟨?_, ?_, ?_⟩
  · intro l h hne hALL hsub
    subst h
    simp [resolveAlgos, truthyList, hne, hALL, hsub]
    exact fun x hx hnot => absurd (hsub x hx) hnot
  · intro l h hALL
    subst h
    simp [resolveAlgos, truthyList, hALL]
  · intro h
    subst h
    simp [resolveAlgos, truthyList]

/-- Witness for C3 at concrete requested lists. -/
theorem c3_witness :
    resolveAlgos (some ["pagerank", "bfs"]) getAllPossibleAlgos
      = .ok ["pagerank", "bfs"]
    ∧ resolveAlgos (some ["ALL"]) getAllPossibleAlgos
      = .ok getAllPossibleAlgos
    ∧ resolveAlgos none getAllPossibleAlgos = .ok getAllPossibleAlgos :=
  ⟨(c3_algo_resolution _).1 _ rfl (by decide) (by decide) (by decide),
   (c3_algo_resolution _).2.1 _ rfl (by decide),
   (c3_algo_resolution _).2.2 rfl⟩

/-- C4: for every pair of inputs to `getBenchmarks` — any graph handle
(including the placeholder `nop`), any edge-list table, any configuration
object — the key list of the returned name-to-Benchmark dictionary is the
same fixed 14-element name list, in the same order, and equals
`getAllPossibleAlgos`, which is computed against placeholders. -/
theorem c4_registry_names_stable {γ ε α γ2 ε2 α2 : Type}
    (G : γ) (e : ε) (a : α) (G2 : γ2) (e2 : ε2) (a2 : α2) :
    pyDictKeys ((getBenchmarks G e a).map Benchmark.name)
      = pyDictKeys ((getBenchmarks G2 e2 a2).map Benchmark.name)
    ∧ pyDictKeys ((getBenchmarks G e a).map Benchmark.name)
      = getAllPossibleAlgos
    ∧ getAllPossibleAlgos.length = 14 :=
  ⟨rfl, rfl, rfl⟩

/-- C5: the ASV payload conversion is a pure function of the result log
(the embedding of the list comprehension on lines 216–219 builds a fresh
list and cannot mutate its input, and being a function it returns identical
output on identical input): it preserves length and order, maps each record
whose value is a string (an error) to a null value, and leaves every other
record's value unchanged. -/
theorem c5_asv_conversion (l : List PerfRecord) :
    (asvPerfData l).length = l.length
    ∧ (asvPerfData l).map Prod.fst = l.map Prod.fst
    ∧ (∀ i : ℕ, (asvPerfData l)[i]?
        = (l[i]?).map (fun p => (p.1, if p.2.isStr then none else some p.2))) := by
  refine ⟨by simp [asvPerfData], by simp [asvPerfData], fun i => ?_⟩
  simp [asvPerfData]

/-- Splitting on a character that does not occur returns the whole list as
the single chunk, exactly like Python's `split`. -/
theorem splitOnChar_of_not_mem (c : Char) (l : List Char) (h : c ∉ l) :
    splitOnChar c l = [l] := by
  induction l with
  | nil => rfl
  | cons a rest ih =>
    have ha : ¬(a = c) := fun hac => h (hac ▸ List.mem_cons_self a rest)
    have hrest : c ∉ rest := fun hm => h (List.mem_cons_of_mem a hm)
    rw [splitOnChar, ih hrest]
    simp [ha]

/-- Case analysis of `loadDataFile` on the computed extension. -/
theorem loadDataFile_cases (fn : String) (d : Char) :
    (fileTypeOf fn = "mtx" → loadDataFile fn d = .ok (.mtxRead fn))
    ∧ (fileTypeOf fn = "csv" → loadDataFile fn d = .ok (.csvRead fn d))
    ∧ (fileTypeOf fn ≠ "mtx" → fileTypeOf fn ≠ "csv" →
        loadDataFile fn d = .error (badFileTypeMsg (fileTypeOf fn) fn)) := by
  refine ⟨fun h => ?_, fun h => ?_, fun h1 h2 => ?_⟩
  · simp [loadDataFile, h]
  · simp [loadDataFile, h]
  · simp [loadDataFile, h1, h2]

/-- A dotless path is its own computed extension. -/
theorem fileTypeOf_of_no_dot (q : String) (hq : '.' ∉ q.data) :
    fileTypeOf q = q := by
  unfold fileTypeOf
  rw [splitOnChar_of_not_mem _ _ hq]
  rfl

/-- C8: `loadDataFile` dispatches on the substring after the last dot:
`mtx` goes to the matrix-market reader, `csv` to the delimited-text reader,
and any other extension raises a `ValueError` whose message names both the
offending extension and the file path (the `Except.error` result carries no
`ReadDispatch`, so no reader runs and the file is never read). -/
theorem c8_extension_dispatch (fn : String) (d : Char) :
    (fileTypeOf fn = "mtx" → loadDataFile fn d = .ok (.mtxRead fn))
    ∧ (fileTypeOf fn = "csv" → loadDataFile fn d = .ok (.csvRead fn d))
    ∧ (fileTypeOf fn ≠ "mtx" → fileTypeOf fn ≠ "csv" →
        loadDataFile fn d = .error (badFileTypeMsg (fileTypeOf fn) fn)) :=
  loadDataFile_cases fn d

/-- Witness for C8: a `.json` path fails with the bad-file-type error
naming extension and path; `.mtx` and `.csv` paths dispatch to their
readers. -/
theorem c8_witness :
    loadDataFile "data.json" ' '
      = .error (badFileTypeMsg "json" "data.json")
    ∧ loadDataFile "g.mtx" ' ' = .ok (.mtxRead "g.mtx")
    ∧ loadDataFile "g.csv" '\t' = .ok (.csvRead "g.csv" '\t') := by
  refine ⟨?_, ?_, ?_⟩
  · have h := (c8_extension_dispatch "data.json" ' ').2.2
      (by decide) (by decide)
    have hft : fileTypeOf "data.json" = "json" := by decide
    rw [hft] at h
    exact h
  · exact (c8_extension_dispatch "g.mtx" ' ').1 (by decide)
  · exact (c8_extension_dispatch "g.csv" '\t').2.1 (by decide)

/-- C10: the extension is the substring after the last dot, so a dotless
path is its own extension — a file literally named `mtx` dispatches to the
matrix-market reader, one named `csv` to the csv reader, any other dotless
path fails with the bad-file-type error quoting the whole path as the
extension, and `a.mtx.bak` has extension `bak` and fails. -/
theorem c10_dotless_extension (p : String) (d : Char) :
    loadDataFile "mtx" d = .ok (.mtxRead "mtx")
    ∧ loadDataFile "csv" d = .ok (.csvRead "csv" d)
    ∧ ('.' ∉ p.data → fileTypeOf p = p)
    ∧ ('.' ∉ p.data → p ≠ "mtx" → p ≠ "csv" →
        loadDataFile p d = .error (badFileTypeMsg p p))
    ∧ loadDataFile "a.mtx.bak" d
        = .error (badFileTypeMsg "bak" "a.mtx.bak") := by
  refine ⟨?_, ?_, fileTypeOf_of_no_dot p, fun h1 h2 h3 => ?_, ?_⟩
  · exact (loadDataFile_cases "mtx" d).1 (by decide)
  · exact (loadDataFile_cases "csv" d).2.1 (by decide)
  · have h := (loadDataFile_cases p d).2.2
      (by rw [fileTypeOf_of_no_dot p h1]; exact h2)
      (by rw [fileTypeOf_of_no_dot p h1]; exact h3)
    rw [fileTypeOf_of_no_dot p h1] at h
    exact h
  · have h := (loadDataFile_cases "a.mtx.bak" d).2.2
      (by decide) (by decide)
    have hb : fileTypeOf "a.mtx.bak" = "bak" := by decide
    rw [hb] at h
    exact h

/-- Witness for C10 at a concrete dotless path. -/
theorem c10_witness :
    loadDataFile "mtx" ' ' = .ok (.mtxRead "mtx")
    ∧ fileTypeOf "edges" = "edges"
    ∧ loadDataFile "edges" ' ' = .error (badFileTypeMsg "edges" "edges") := by
  have h := c10_dotless_extension "edges" ' '
  exact ⟨h.1, h.2.2.1 (by decide),
    h.2.2.2.1 (by decide) (by decide) (by decide)⟩

/-- C1 (amended): when the user supplies explicit `--algo` names and
`"ALL"` is not among them, any supplied name outside the registry name set
makes the run fail with the `ValueError` naming the supplied names, before
`loadDataFile` is called and with zero `PerfRecords` produced.  (When
`"ALL"` is among the supplied names this validation is skipped entirely;
see the counterexample.) -/
theorem c1_unknown_algo_fatal (exec : String → Outcome) (args : ArgsData)
    (l : List String) (x : String)
    (halgo : args.algo = some l) (hALL : "ALL" ∉ l) (hx : x ∈ l)
    (hbad : x ∉ getAllPossibleAlgos ++ ["ALL"]) :
    (mainRun exec args).err
      = some (.badAlgo (badAlgoMsg l (getAllPossibleAlgos ++ ["ALL"])))
    ∧ (mainRun exec args).log = [] := by
  have hne : l ≠ [] := List.ne_nil_of_mem hx
  have hres : resolveAlgos (some l) getAllPossibleAlgos
      = .error (badAlgoMsg l (getAllPossibleAlgos ++ ["ALL"])) := by
    simp [resolveAlgos, truthyList, hne, hALL]
    exact ⟨x, hx, by simpa using hbad⟩
  constructor <;> simp [mainRun, halgo, hres]

/-- Witness for the amended C1: `--algo bogus` fails with the `ValueError`
and an empty log. -/
theorem c1_witness :
    (mainRun execOne cfgBogus).err
      = some (.badAlgo (badAlgoMsg ["bogus"] (getAllPossibleAlgos ++ ["ALL"])))
    ∧ (mainRun execOne cfgBogus).log = [] :=
  c1_unknown_algo_fatal execOne cfgBogus ["bogus"] "bogus" rfl (by decide)
    (by decide) (by decide)

/-- Counterexample to C1 as stated: under `--algo bogus --algo ALL` the
supplied name `bogus` is outside the allowed set, yet the run does not fail
with a configuration error — it runs to completion and produces the full
16-record log (line 179 skips validation whenever `"ALL"` is among the
supplied names). -/
theorem c1_counterexample :
    "bogus" ∈ ["bogus", "ALL"]
    ∧ "bogus" ∉ getAllPossibleAlgos ++ ["ALL"]
    ∧ cfgBogusAll.algo = some ["bogus", "ALL"]
    ∧ (mainRun execOne cfgBogusAll).err = none
    ∧ (mainRun execOne cfgBogusAll).log.length = 16 := by
  refine ⟨by decide, by decide, rfl, by decide, by decide⟩

/-- C6 (amended): a run with a truthy `--update_results_dir` does terminate
fatally with the unimplemented-feature error, but only after every resolved
benchmark has executed — the check sits in the reporting phase (line 213),
after the execution loop, so the log already holds the loader, builder and
one record per resolved algorithm. -/
theorem c6_update_results_unimplemented (exec : String → Outcome)
    (args : ArgsData) (l : List String) (t : ℚ)
    (hres : resolveAlgos args.algo getAllPossibleAlgos = .ok l)
    (hG : exec "createGraph" = .ok t)
    (hdir : truthyStr args.update_results_dir = true) :
    (mainRun exec args).err = some .notImplemented
    ∧ (mainRun exec args).log.length = l.length + 2 := by
  obtain ⟨hlog, herr⟩ := mainRun_built exec args l t hres hG
  refine ⟨by rw [herr, if_pos hdir], ?_⟩
  rw [hlog]
  simp

/-- Witness for the amended C6. -/
theorem c6_witness :
    (mainRun execOne cfgResultsDir).err = some RunError.notImplemented
    ∧ (mainRun execOne cfgResultsDir).log.length
        = getAllPossibleAlgos.length + 2 :=
  c6_update_results_unimplemented execOne cfgResultsDir getAllPossibleAlgos 1
    rfl rfl rfl

/-- Counterexample to C6 as stated: with `--update_results_dir resdir` the
claim predicts the error aborts the run before any benchmark executes, but
the final log holds 16 records — loader, builder and all 14 algorithm
benchmarks ran before `NotImplementedError` was raised. -/
theorem c6_counterexample :
    truthyStr cfgResultsDir.update_results_dir = true
    ∧ (mainRun execOne cfgResultsDir).err = some RunError.notImplemented
    ∧ (mainRun execOne cfgResultsDir).log.length = 16
    ∧ (mainRun execOne cfgResultsDir).log.map Prod.fst
        = "loadDataFile" :: "createGraph" :: getAllPossibleAlgos := by
  refine ⟨rfl, by decide, by decide, by decide⟩

/-- C7: when the builder's callable raises, the graph handle is null after
construction and the run aborts immediately with `RuntimeError` — the
result is the `graphFail` error with exactly the loader and builder records
in the log (no registry is consulted and no algorithm benchmark runs). -/
theorem c7_null_graph_aborts (exec : String → Outcome) (args : ArgsData)
    (l : List String) (m : String)
    (hres : resolveAlgos args.algo getAllPossibleAlgos = .ok l)
    (hG : exec "createGraph" = .raises m) :
    (mainRun exec args).err = some .graphFail
    ∧ (mainRun exec args).log.map Prod.fst = ["loadDataFile", "createGraph"]
    ∧ (mainRun exec args).log.length = 2 := by
  rw [mainRun_graphFail exec args l m hres hG]
  exact ⟨rfl, rfl, rfl⟩

/-- Witness for C7 with a builder that raises. -/
theorem c7_witness :
    (mainRun execGraphBoom cfgAllDefault).err = some RunError.graphFail
    ∧ (mainRun execGraphBoom cfgAllDefault).log.map Prod.fst
        = ["loadDataFile", "createGraph"]
    ∧ (mainRun execGraphBoom cfgAllDefault).log.length = 2 :=
  c7_null_graph_aborts execGraphBoom cfgAllDefault getAllPossibleAlgos "boom"
    rfl rfl

/-- C9 (amended): each benchmark's `run()` is invoked once per occurrence
of its name in the resolved list — the record (name, func, bound args) is
itself immutable, but since `--algo` may repeat a name, a registered
benchmark can run more than once in a program run; when the resolved list
is duplicate-free (in particular with `ALL` or no `--algo`), each
registered benchmark runs at most once. -/
theorem c9_run_once_per_occurrence (exec : String → Outcome) (args : ArgsData)
    (l : List String) (t : ℚ)
    (hres : resolveAlgos args.algo getAllPossibleAlgos = .ok l)
    (hG : exec "createGraph" = .ok t) :
    (mainRun exec args).log.map Prod.fst
      = "loadDataFile" :: "createGraph" :: l
    ∧ (∀ n : String, n ∈ getAllPossibleAlgos →
        ((mainRun exec args).log.map Prod.fst).count n = l.count n)
    ∧ (l.Nodup → ∀ n : String, l.count n ≤ 1) := by
  obtain ⟨hlog, -⟩ := mainRun_built exec args l t hres hG
  have hnames : (mainRun exec args).log.map Prod.fst
      = "loadDataFile" :: "createGraph" :: l := by
    rw [hlog]
    simp only [List.map_cons, List.map_map]
    congr 2
    exact List.map_id l
  refine ⟨hnames, fun n hn => ?_,
    fun hd n => List.nodup_iff_count_le_one.mp hd n⟩
  have h1 : n ≠ "loadDataFile" := by rintro rfl; revert hn; decide
  have h2 : n ≠ "createGraph" := by rintro rfl; revert hn; decide
  rw [hnames, List.count_cons_of_ne h1, List.count_cons_of_ne h2]

/-- Witness for the amended C9 at `--algo pagerank --algo bfs`. -/
theorem c9_witness :
    (mainRun execOne cfgTwo).log.map Prod.fst
      = "loadDataFile" :: "createGraph" :: ["pagerank", "bfs"]
    ∧ ((mainRun execOne cfgTwo).log.map Prod.fst).count "pagerank"
        = (["pagerank", "bfs"] : List String).count "pagerank" := by
  have h := c9_run_once_per_occurrence execOne cfgTwo ["pagerank", "bfs"] 1
    rfl rfl
  exact ⟨h.1, h.2.1 "pagerank" (by decide)⟩

/-- Counterexample to C9 as stated: `--algo pagerank --algo pagerank`
passes validation and the pagerank benchmark's `run()` is invoked twice in
one program run. -/
theorem c9_counterexample :
    cfgDupPagerank.algo = some ["pagerank", "pagerank"]
    ∧ ((mainRun execOne cfgDupPagerank).log.map Prod.fst).count "pagerank"
        = 2 := by
  refine ⟨rfl, by decide⟩

end RunBenchmarks
